import Mathlib

/-!
Shallow embedding of the session-key authorization program
(`src/programs/time/src`) for checking its specification.

Identities (Solana `Pubkey`s) are modelled abstractly as natural numbers:
the program only ever compares them for equality.  Machine integers `i64`
and `u64` hold timestamps, slots and token amounts; the program only
compares them (no arithmetic that could wrap), so they are modelled as
`Int` and `Nat`.

The Anchor runtime commits an account mutation only when a handler returns
`Ok`; a handler that returns `Err` leaves the persisted account untouched.
Handlers are therefore modelled as functions returning
`Option ErrorCode × UserAccount`: the first component is the reported
error (or `none` on success) and the second is the persisted account
state after the call.
-/

namespace SessionKeyProgram

/-- Abstract identity (Solana `Pubkey`), compared only by equality. -/
abbrev Pubkey := Nat

/-- `ExpirationType` from `state.rs`: a session key expires either at a
Unix timestamp or at a block height (slot number). -/
inductive ExpirationType where
  | Time
  | BlockHeight
deriving DecidableEq, Repr

/-- `SessionPermissions` from `state.rs`. `max_transfer_amount` is a `u64`
where `0` means unlimited. -/
structure SessionPermissions where
  can_transfer : Bool
  can_delegate : Bool
  can_execute_custom : Bool
  max_transfer_amount : Nat
  custom_flags : Nat
deriving DecidableEq, Repr

/-- `SessionKey` record from `state.rs`. The `label` is a 32-byte buffer,
modelled as a list of bytes. -/
structure SessionKey where
  pubkey : Pubkey
  created_at : Int
  expires_at : Int
  expiration_type : ExpirationType
  permissions : SessionPermissions
  is_revoked : Bool
  label : List Nat
deriving DecidableEq, Repr

/-- The parts of Solana's `Clock` sysvar the program reads. -/
structure Clock where
  unix_timestamp : Int
  slot : Nat
deriving DecidableEq, Repr

/-- `SessionKey::is_expired` from `state.rs`: `expires_at <= now` with the
reference chosen by `expiration_type`. -/
def SessionKey.is_expired (k : SessionKey) (clock : Clock) : Bool :=
  match k.expiration_type with
  | .Time => decide (k.expires_at ≤ clock.unix_timestamp)
  | .BlockHeight => decide (k.expires_at ≤ (clock.slot : Int))

/-- `SessionKey::is_valid` from `state.rs`: not revoked and not expired. -/
def SessionKey.is_valid (k : SessionKey) (clock : Clock) : Bool :=
  !k.is_revoked && !k.is_expired clock

/-- `UserAccount` from `state.rs`. The `allowed_mints` field is declared
outside the snapshotted sources but is read and written by the handlers
(`update_allowed_mints.rs`, `spl_delegated_transfer.rs`,
`spl_approve_delegate.rs`); per the spec it is a list of mint identities
of length at most `MAX_ALLOWED_MINTS`. -/
structure UserAccount where
  authority : Pubkey
  session_keys : List SessionKey
  bump : Nat
  allowed_mints : List Pubkey
deriving DecidableEq, Repr

/-- `SessionAction` from `state.rs`. -/
inductive SessionAction where
  | Transfer (recipient : Pubkey) (amount : Nat)
  | Delegate (new_session_key : Pubkey) (permissions : SessionPermissions)
  | Custom (program_id : Pubkey) (data : List Nat)
deriving DecidableEq, Repr

/-- The program's error codes from `errors.rs`. `MintNotAllowed` and
`TooManyAllowedMints` are referenced by the handlers; their declarations
live outside the snapshotted sources. -/
inductive ErrorCode where
  | InvalidExpiry
  | TooManySessionKeys
  | SessionKeyAlreadyExists
  | SessionKeyNotFound
  | SessionKeyRevoked
  | SessionKeyAlreadyRevoked
  | SessionKeyExpired
  | InsufficientPermissions
  | MintNotAllowed
  | TooManyAllowedMints
deriving DecidableEq, Repr

/-- `MAX_SESSION_KEYS` from `constants.rs`. -/
def MAX_SESSION_KEYS : Nat := 10

/-- `MAX_ALLOWED_MINTS` from `constants.rs`. -/
def MAX_ALLOWED_MINTS : Nat := 8

/-- `initialize_user_account::handler`: fresh account with empty registry
and empty allowlist. -/
def initialize_user_account (authority : Pubkey) (bump : Nat) : UserAccount :=
  { authority := authority
    session_keys := []
    bump := bump
    allowed_mints := [] }

/-- Mutate the first element of the list satisfying `p` (the effect of
Rust's `iter_mut().find(p)` followed by a field assignment). -/
def modifyFirst (p : SessionKey → Bool) (f : SessionKey → SessionKey) :
    List SessionKey → List SessionKey
  | [] => []
  | k :: ks => if p k then f k :: ks else k :: modifyFirst p f ks

/-- `create_session_key::handler`: validate expiry (per expiration type),
capacity, uniqueness — in that order — then append a fresh record.
`created_at` is always `clock.unix_timestamp`, the label starts zeroed. -/
def create_session_key (ua : UserAccount) (clock : Clock) (session_pubkey : Pubkey)
    (expires_at : Int) (expiration_type : ExpirationType)
    (permissions : SessionPermissions) : Option ErrorCode × UserAccount :=
  let expiryOk : Bool :=
    match expiration_type with
    | .Time => decide (expires_at > clock.unix_timestamp)
    | .BlockHeight => decide (expires_at > (clock.slot : Int))
  if !expiryOk then
    (some .InvalidExpiry, ua)
  else if !(decide (ua.session_keys.length < MAX_SESSION_KEYS)) then
    (some .TooManySessionKeys, ua)
  else if ua.session_keys.any (fun k => k.pubkey == session_pubkey) then
    (some .SessionKeyAlreadyExists, ua)
  else
    let sk : SessionKey :=
      { pubkey := session_pubkey
        created_at := clock.unix_timestamp
        expires_at := expires_at
        expiration_type := expiration_type
        permissions := permissions
        is_revoked := false
        label := List.replicate 32 0 }
    (none, { ua with session_keys := ua.session_keys ++ [sk] })

/-- `update_session_key::handler`: find the record, reject if revoked,
validate a new expiry (if given) against the record's existing
expiration type, then overwrite `expires_at` and/or `permissions`. -/
def update_session_key (ua : UserAccount) (clock : Clock) (session_pubkey : Pubkey)
    (new_expires_at : Option Int) (new_permissions : Option SessionPermissions) :
    Option ErrorCode × UserAccount :=
  match ua.session_keys.find? (fun k => k.pubkey == session_pubkey) with
  | none => (some .SessionKeyNotFound, ua)
  | some k =>
    if k.is_revoked then
      (some .SessionKeyRevoked, ua)
    else
      let applyBoth : SessionKey → SessionKey := fun sk =>
        let sk := match new_expires_at with
          | some e => { sk with expires_at := e }
          | none => sk
        match new_permissions with
        | some p => { sk with permissions := p }
        | none => sk
      match new_expires_at with
      | some e =>
        let expiryOk : Bool :=
          match k.expiration_type with
          | .Time => decide (e > clock.unix_timestamp)
          | .BlockHeight => decide (e > (clock.slot : Int))
        if !expiryOk then
          (some .InvalidExpiry, ua)
        else
          let keys := modifyFirst (fun sk => sk.pubkey == session_pubkey) applyBoth ua.session_keys
          (none, { ua with session_keys := keys })
      | none =>
        let keys := modifyFirst (fun sk => sk.pubkey == session_pubkey) applyBoth ua.session_keys
        (none, { ua with session_keys := keys })

/-- `revoke_session_key::handler`: find the record, reject if already
revoked, otherwise set `is_revoked`. -/
def revoke_session_key (ua : UserAccount) (session_pubkey : Pubkey) :
    Option ErrorCode × UserAccount :=
  match ua.session_keys.find? (fun k => k.pubkey == session_pubkey) with
  | none => (some .SessionKeyNotFound, ua)
  | some k =>
    if k.is_revoked then
      (some .SessionKeyAlreadyRevoked, ua)
    else
      let keys := modifyFirst (fun sk => sk.pubkey == session_pubkey)
        (fun sk => { sk with is_revoked := true }) ua.session_keys
      (none, { ua with session_keys := keys })

/-- `revoke_all_session_keys::handler`: set `is_revoked` on every record;
never fails. The emitted count is the registry size. -/
def revoke_all_session_keys (ua : UserAccount) : Option ErrorCode × UserAccount :=
  let keys := ua.session_keys.map (fun sk => { sk with is_revoked := true })
  (none, { ua with session_keys := keys })

/-- `cleanup_session_keys::handler`: retain the valid records, never
fails; the third component is the reported removed count
(`initial_count - final_count`). -/
def cleanup_session_keys (ua : UserAccount) (clock : Clock) :
    Option ErrorCode × UserAccount × Nat :=
  let kept := ua.session_keys.filter (fun k => k.is_valid clock)
  (none, { ua with session_keys := kept }, ua.session_keys.length - kept.length)

/-- `update_allowed_mints::handler`: replace the allowlist wholesale after
a capacity check. -/
def update_allowed_mints (ua : UserAccount) (mints : List Pubkey) :
    Option ErrorCode × UserAccount :=
  if decide (mints.length > MAX_ALLOWED_MINTS) then
    (some .TooManyAllowedMints, ua)
  else
    (none, { ua with allowed_mints := mints })

/-- `execute_with_session_key::handler`. The three optional accounts of
the `ExecuteWithSessionKey` context are modelled by `Option`s carrying
the account keys (the handler only reads keys and presence); the CPI
transfer itself is an external collaborator and is not modelled — a
`none` result means the handler reached the CPI / acknowledgement and
returned `Ok`. Checks run in source order: lookup, revocation, expiry,
then per-action permissions. -/
def execute_with_session_key (ua : UserAccount) (session_signer : Pubkey)
    (clock : Clock) (action : SessionAction)
    (from_account to_account : Option Pubkey) (system_program : Option Unit) :
    Option ErrorCode :=
  match ua.session_keys.find? (fun k => k.pubkey == session_signer) with
  | none => some .SessionKeyNotFound
  | some session_key =>
    if session_key.is_revoked then
      some .SessionKeyRevoked
    else
      let notExpired : Bool :=
        match session_key.expiration_type with
        | .Time => decide (session_key.expires_at > clock.unix_timestamp)
        | .BlockHeight => decide (session_key.expires_at > (clock.slot : Int))
      if !notExpired then
        some .SessionKeyExpired
      else
        match action with
        | .Transfer recipient amount =>
          if !session_key.permissions.can_transfer then
            some .InsufficientPermissions
          else if session_key.permissions.max_transfer_amount > 0 &&
              !(decide (amount ≤ session_key.permissions.max_transfer_amount)) then
            some .InsufficientPermissions
          else
            match from_account with
            | none => some .InsufficientPermissions
            | some fromKey =>
              match to_account with
              | none => some .InsufficientPermissions
              | some toKey =>
                match system_program with
                | none => some .InsufficientPermissions
                | some _ =>
                  if !(fromKey == ua.authority) then
                    some .InsufficientPermissions
                  else if !(toKey == recipient) then
                    some .InsufficientPermissions
                  else
                    none
        | .Delegate _ _ =>
          if !session_key.permissions.can_delegate then
            some .InsufficientPermissions
          else
            none
        | .Custom _ _ =>
          if !session_key.permissions.can_execute_custom then
            some .InsufficientPermissions
          else
            none

/-- `spl_delegated_transfer::handler`. `expected_delegate` is the address
computed by the external derivation collaborator
(`Pubkey::find_program_address` over the user-account key and the mint);
the handler compares it with the caller-supplied `delegate_authority`.
The final checked-transfer CPI is external; `none` means the handler
reached it. Checks run in source order: lookup, revocation, expiry,
`can_transfer`, amount cap, delegate match, mint allowlist. -/
def spl_delegated_transfer (ua : UserAccount) (session_signer : Pubkey)
    (clock : Clock) (mint : Pubkey) (delegate_authority expected_delegate : Pubkey)
    (amount : Nat) : Option ErrorCode :=
  match ua.session_keys.find? (fun k => k.pubkey == session_signer) with
  | none => some .SessionKeyNotFound
  | some session_key =>
    if session_key.is_revoked then
      some .SessionKeyRevoked
    else
      let notExpired : Bool :=
        match session_key.expiration_type with
        | .Time => decide (session_key.expires_at > clock.unix_timestamp)
        | .BlockHeight => decide (session_key.expires_at > (clock.slot : Int))
      if !notExpired then
        some .SessionKeyExpired
      else if !session_key.permissions.can_transfer then
        some .InsufficientPermissions
      else if session_key.permissions.max_transfer_amount > 0 &&
          !(decide (amount ≤ session_key.permissions.max_transfer_amount)) then
        some .InsufficientPermissions
      else if !(expected_delegate == delegate_authority) then
        some .InsufficientPermissions
      else if !ua.allowed_mints.isEmpty &&
          !(ua.allowed_mints.any (fun m => m == mint)) then
        some .MintNotAllowed
      else
        none

/-- `spl_approve_delegate::handler`. `expected_delegate` is again the
externally derived address; `token_account_owner` and
`token_account_mint` are the owner/mint recorded in the supplied token
account; `authority` is the signing owner. The approve CPI is external;
`none` means the handler reached it. Checks run in source order:
delegate match, token-account owner, token-account mint, mint
allowlist. -/
def spl_approve_delegate (ua : UserAccount) (authority : Pubkey)
    (token_account_owner token_account_mint : Pubkey) (mint : Pubkey)
    (delegate_authority expected_delegate : Pubkey) : Option ErrorCode :=
  if !(expected_delegate == delegate_authority) then
    some .InsufficientPermissions
  else if !(token_account_owner == authority) then
    some .InsufficientPermissions
  else if !(token_account_mint == mint) then
    some .InsufficientPermissions
  else if !ua.allowed_mints.isEmpty &&
      !(ua.allowed_mints.any (fun m => m == mint)) then
    some .MintNotAllowed
  else
    none

/-- The registry-mutating operations of the program, for stating
state-evolution properties. -/
inductive Op where
  | create (pk : Pubkey) (expires_at : Int) (ty : ExpirationType) (perms : SessionPermissions)
  | update (pk : Pubkey) (new_expires_at : Option Int) (new_permissions : Option SessionPermissions)
  | revoke (pk : Pubkey)
  | revokeAll
  | cleanup
  | setAllowedMints (mints : List Pubkey)
deriving Repr

/-- One program invocation against an account: the reported error (if
any) and the persisted account state after the call. -/
def step (ua : UserAccount) (clock : Clock) : Op → Option ErrorCode × UserAccount
  | .create pk e ty p => create_session_key ua clock pk e ty p
  | .update pk ne np => update_session_key ua clock pk ne np
  | .revoke pk => revoke_session_key ua pk
  | .revokeAll => revoke_all_session_keys ua
  | .cleanup =>
    let r := cleanup_session_keys ua clock
    (r.1, r.2.1)
  | .setAllowedMints ms => update_allowed_mints ua ms

/-- Run a sequence of operations, each with its own clock reading. -/
def runOps (ua : UserAccount) : List (Clock × Op) → UserAccount
  | [] => ua
  | (c, op) :: rest => runOps (step ua c op).2 rest

/-- The current reference value an expiry is compared against: the Unix
timestamp for `Time` keys, the slot for `BlockHeight` keys (the spec's
"current reference for the given expiration type"). -/
def currentReference (ty : ExpirationType) (clock : Clock) : Int :=
  match ty with
  | .Time => clock.unix_timestamp
  | .BlockHeight => (clock.slot : Int)

/-- Registry invariant: bounded size and pairwise-distinct key
identities. -/
def RegistryInv (ua : UserAccount) : Prop :=
  ua.session_keys.length ≤ MAX_SESSION_KEYS ∧
  (ua.session_keys.map SessionKey.pubkey).Nodup

/-! ## Helper lemmas -/

theorem modifyFirst_map_of_preserves {p : SessionKey → Bool} {f : SessionKey → SessionKey}
    {g : SessionKey → Pubkey} (hf : ∀ k, g (f k) = g k) (l : List SessionKey) :
    (modifyFirst p f l).map g = l.map g := by
  induction l with
  | nil => rfl
  | cons k ks ih =>
    by_cases hk : p k <;> simp [modifyFirst, hk, hf, ih]

theorem modifyFirst_length (p : SessionKey → Bool) (f : SessionKey → SessionKey)
    (l : List SessionKey) : (modifyFirst p f l).length = l.length := by
  induction l with
  | nil => rfl
  | cons k ks ih =>
    by_cases hk : p k <;> simp [modifyFirst, hk, ih]

theorem mem_modifyFirst {p : SessionKey → Bool} {f : SessionKey → SessionKey}
    {l : List SessionKey} {k' : SessionKey} (h : k' ∈ modifyFirst p f l) :
    k' ∈ l ∨ ∃ x, x ∈ l ∧ p x = true ∧ k' = f x := by
  induction l with
  | nil => simp [modifyFirst] at h
  | cons k ks ih =>
    by_cases hk : p k
    · simp only [modifyFirst, hk, if_pos, List.mem_cons] at h
      rcases h with h | h
      · exact Or.inr ⟨k, List.mem_cons_self .., hk, h⟩
      · exact Or.inl (List.mem_cons_of_mem _ h)
    · simp only [modifyFirst, hk, if_neg, Bool.false_eq_true, not_false_iff,
        List.mem_cons] at h
      rcases h with h | h
      · exact Or.inl (h ▸ List.mem_cons_self ..)
      · rcases ih h with h | ⟨x, hx, hpx, hkx⟩
        · exact Or.inl (List.mem_cons_of_mem _ h)
        · exact Or.inr ⟨x, List.mem_cons_of_mem _ hx, hpx, hkx⟩

theorem length_filter_not_eq_sub (p : SessionKey → Bool) (l : List SessionKey) :
    (l.filter (fun k => !p k)).length = l.length - (l.filter p).length := by
  induction l with
  | nil => rfl
  | cons k ks ih =>
    by_cases hk : p k <;>
      simp [List.filter_cons, hk, ih, Nat.succ_sub (List.length_filter_le p ks)]

/-- Under a found, unrevoked, unexpired session key with `can_transfer`
set, `spl_delegated_transfer` reduces to its cap, delegate and allowlist
checks. -/
theorem spl_delegated_transfer_valid_reduce (ua : UserAccount) (sig : Pubkey)
    (c : Clock) (k : SessionKey) (mint da ed : Pubkey) (amount : Nat)
    (hfind : ua.session_keys.find? (fun k => k.pubkey == sig) = some k)
    (hrev : k.is_revoked = false) (hexp : k.is_expired c = false)
    (hct : k.permissions.can_transfer = true) :
    spl_delegated_transfer ua sig c mint da ed amount =
      (if k.permissions.max_transfer_amount > 0 &&
          !(decide (amount ≤ k.permissions.max_transfer_amount)) then
        some .InsufficientPermissions
      else if !(ed == da) then
        some .InsufficientPermissions
      else if !ua.allowed_mints.isEmpty &&
          !(ua.allowed_mints.any (fun m => m == mint)) then
        some .MintNotAllowed
      else
        none) := by
  cases hty : k.expiration_type <;>
    simp_all [spl_delegated_transfer, SessionKey.is_expired, not_le]

/-- Under a found, unrevoked, unexpired session key with `can_transfer`
set, the `Transfer` branch of `execute_with_session_key` reduces to its
cap and account checks. -/
theorem execute_transfer_valid_reduce (ua : UserAccount) (sig : Pubkey) (c : Clock)
    (k : SessionKey) (recipient : Pubkey) (amount : Nat)
    (fa ta : Option Pubkey) (sp : Option Unit)
    (hfind : ua.session_keys.find? (fun k => k.pubkey == sig) = some k)
    (hrev : k.is_revoked = false) (hexp : k.is_expired c = false)
    (hct : k.permissions.can_transfer = true) :
    execute_with_session_key ua sig c (.Transfer recipient amount) fa ta sp =
      (if k.permissions.max_transfer_amount > 0 &&
          !(decide (amount ≤ k.permissions.max_transfer_amount)) then
        some .InsufficientPermissions
      else
        match fa with
        | none => some .InsufficientPermissions
        | some fromKey =>
          match ta with
          | none => some .InsufficientPermissions
          | some toKey =>
            match sp with
            | none => some .InsufficientPermissions
            | some _ =>
              if !(fromKey == ua.authority) then some .InsufficientPermissions
              else if !(toKey == recipient) then some .InsufficientPermissions
              else none) := by
  cases hty : k.expiration_type <;>
    simp_all [execute_with_session_key, SessionKey.is_expired, not_le]

/-- Every mutating step either succeeds or leaves the persisted account
unchanged. -/
theorem step_ok_or_unchanged (ua : UserAccount) (c : Clock) (op : Op) :
    (step ua c op).1 = none ∨ (step ua c op).2 = ua := by
  cases op with
  | create pk ex ty p =>
    simp only [step, create_session_key]
    split
    · exact Or.inr rfl
    split
    · exact Or.inr rfl
    split
    · exact Or.inr rfl
    · exact Or.inl rfl
  | update pk ne np =>
    simp only [step, update_session_key]
    split
    · exact Or.inr rfl
    split
    · exact Or.inr rfl
    split
    · split
      · exact Or.inr rfl
      · exact Or.inl rfl
    · exact Or.inl rfl
  | revoke pk =>
    simp only [step, revoke_session_key]
    split
    · exact Or.inr rfl
    split
    · exact Or.inr rfl
    · exact Or.inl rfl
  | revokeAll => exact Or.inl rfl
  | cleanup => exact Or.inl rfl
  | setAllowedMints ms =>
    simp only [step, update_allowed_mints]
    split
    · exact Or.inr rfl
    · exact Or.inl rfl

/-- Every mutating step preserves the registry invariant. -/
theorem step_preserves_registryInv (ua : UserAccount) (c : Clock) (op : Op)
    (h : RegistryInv ua) : RegistryInv (step ua c op).2 := by
  obtain ⟨hlen, hnd⟩ := h
  cases op with
  | create pk ex ty p =>
    simp only [step, create_session_key]
    split
    · exact ⟨hlen, hnd⟩
    split
    · exact ⟨hlen, hnd⟩
    split
    · exact ⟨hlen, hnd⟩
    · rename_i hsz hany
      have hlt : ua.session_keys.length < MAX_SESSION_KEYS := by simpa using hsz
      have hnotin : pk ∉ ua.session_keys.map SessionKey.pubkey := by
        simp only [Bool.not_eq_true, List.any_eq_false, beq_iff_eq] at hany
        simp only [List.mem_map, not_exists, not_and]
        intro x hx hxpk
        exact hany x hx hxpk
      constructor
      · simp only [RegistryInv, List.length_append, List.length_singleton]
        omega
      · simp only [List.map_append, List.map_cons, List.map_nil]
        exact List.Nodup.append hnd (List.nodup_singleton _)
          (by simpa [List.disjoint_singleton] using hnotin)
  | update pk ne np =>
    simp only [step, update_session_key]
    split
    · exact ⟨hlen, hnd⟩
    split
    · exact ⟨hlen, hnd⟩
    · split
      · split
        · exact ⟨hlen, hnd⟩
        · constructor
          · simpa [modifyFirst_length] using hlen
          · rw [modifyFirst_map_of_preserves (fun sk => by cases np <;> simp)]
            exact hnd
      · constructor
        · simpa [modifyFirst_length] using hlen
        · rw [modifyFirst_map_of_preserves (fun sk => by cases np <;> simp)]
          exact hnd
  | revoke pk =>
    simp only [step, revoke_session_key]
    split
    · exact ⟨hlen, hnd⟩
    split
    · exact ⟨hlen, hnd⟩
    · constructor
      · simpa [modifyFirst_length] using hlen
      · rw [modifyFirst_map_of_preserves (fun sk => by simp)]
        exact hnd
  | revokeAll =>
    constructor
    · simpa [step, revoke_all_session_keys] using hlen
    · simp only [step, revoke_all_session_keys, List.map_map]
      simpa [Function.comp] using hnd
  | cleanup =>
    constructor
    · exact le_trans (List.Sublist.length_le (List.filter_sublist _)) hlen
    · exact List.Nodup.sublist (List.Sublist.map _ (List.filter_sublist _)) hnd
  | setAllowedMints ms =>
    simp only [step, update_allowed_mints]
    split
    · exact ⟨hlen, hnd⟩
    · exact ⟨hlen, hnd⟩

/-- The registry invariant is preserved by arbitrary operation
sequences. -/
theorem runOps_preserves_registryInv (ops : List (Clock × Op)) (ua : UserAccount)
    (h : RegistryInv ua) : RegistryInv (runOps ua ops) := by
  induction ops generalizing ua with
  | nil => exact h
  | cons p rest ih =>
    obtain ⟨c, op⟩ := p
    exact ih _ (step_preserves_registryInv ua c op h)

/-! ## Claim theorems -/

/-- C1: in `execute_with_session_key` the checks run in a fixed,
short-circuiting order — an absent key reports `SessionKeyNotFound`; a
found revoked key reports `SessionKeyRevoked` whatever its expiry state
(so a record that is both revoked and expired fails with
`SessionKeyRevoked`, never `SessionKeyExpired`); a found, unrevoked,
expired key reports `SessionKeyExpired` — all before any permission
check, for every action and account configuration. -/
theorem execute_checks_ordered (ua : UserAccount) (sig : Pubkey) (c : Clock)
    (action : SessionAction) (fa ta : Option Pubkey) (sp : Option Unit) :
    (ua.session_keys.find? (fun k => k.pubkey == sig) = none →
      execute_with_session_key ua sig c action fa ta sp = some .SessionKeyNotFound) ∧
    (∀ k, ua.session_keys.find? (fun k => k.pubkey == sig) = some k →
      k.is_revoked = true →
      execute_with_session_key ua sig c action fa ta sp = some .SessionKeyRevoked) ∧
    (∀ k, ua.session_keys.find? (fun k => k.pubkey == sig) = some k →
      k.is_revoked = false → k.is_expired c = true →
      execute_with_session_key ua sig c action fa ta sp = some .SessionKeyExpired) := by
  refine ⟨?_, ?_, ?_⟩
  · intro h
    simp [execute_with_session_key, h]
  · intro k hk hrev
    simp [execute_with_session_key, hk, hrev]
  · intro k hk hrev hexp
    cases hty : k.expiration_type <;>
      simp_all [execute_with_session_key, SessionKey.is_expired, hk, hrev, hty, not_lt]

/-- C1 witness: a key that is both revoked and expired at the evaluation
clock fails with `SessionKeyRevoked`. -/
theorem execute_checks_ordered_witness :
    execute_with_session_key
      { authority := 7, session_keys := [⟨1, 0, 5, .Time, ⟨true, true, true, 0, 0⟩, true, []⟩],
        bump := 0, allowed_mints := [] }
      1 ⟨10, 0⟩ (.Transfer 2 1) none none none = some .SessionKeyRevoked ∧
    (⟨1, 0, 5, .Time, ⟨true, true, true, 0, 0⟩, true, []⟩ : SessionKey).is_expired ⟨10, 0⟩ = true := by
  refine ⟨?_, by decide⟩
  exact (execute_checks_ordered _ 1 ⟨10, 0⟩ (.Transfer 2 1) none none none).2.1
    ⟨1, 0, 5, .Time, ⟨true, true, true, 0, 0⟩, true, []⟩ (by decide) (by decide)

/-- C3: the validity evaluator is a pure function of the record's
revocation flag, threshold and expiration type and the clock:
`is_expired` is `expires_at ≤ reference` (timestamp for `Time`, slot for
`BlockHeight`), `is_valid` is `!is_revoked && !is_expired`, and the
boundary is strict — a record is valid exactly when it is unrevoked and
its threshold is strictly in the future. -/
theorem is_valid_pure (k : SessionKey) (c : Clock) :
    k.is_expired c = decide (k.expires_at ≤ currentReference k.expiration_type c) ∧
    k.is_valid c = (!k.is_revoked && !k.is_expired c) ∧
    (k.is_valid c = true ↔
      (k.is_revoked = false ∧ currentReference k.expiration_type c < k.expires_at)) := by
  refine ⟨?_, rfl, ?_⟩
  · cases hty : k.expiration_type <;>
      simp [SessionKey.is_expired, currentReference, hty]
  · cases hty : k.expiration_type <;>
      simp [SessionKey.is_valid, SessionKey.is_expired, currentReference, hty, not_le]

/-- C2: under a valid (found, unrevoked, unexpired) session key, a
`Transfer` with `can_transfer = false` always fails
`InsufficientPermissions` regardless of amount; with `can_transfer =
true` and `max_transfer_amount = 0` any amount passes the cap; with a
positive cap the boundary is inclusive — `amount ≤ cap` succeeds with
well-formed accounts and `amount = cap + 1` fails
`InsufficientPermissions`; and the same `can_transfer` and cap gate
applies on the token-delegated transfer path. -/
theorem transfer_permission_gate (ua : UserAccount) (sig : Pubkey) (c : Clock)
    (k : SessionKey)
    (hfind : ua.session_keys.find? (fun k => k.pubkey == sig) = some k)
    (hrev : k.is_revoked = false) (hexp : k.is_expired c = false) :
    (k.permissions.can_transfer = false →
      ∀ recipient amount fa ta sp,
        execute_with_session_key ua sig c (.Transfer recipient amount) fa ta sp =
          some .InsufficientPermissions) ∧
    (k.permissions.can_transfer = true → k.permissions.max_transfer_amount = 0 →
      ∀ recipient amount,
        execute_with_session_key ua sig c (.Transfer recipient amount)
          (some ua.authority) (some recipient) (some ()) = none) ∧
    (k.permissions.can_transfer = true → 0 < k.permissions.max_transfer_amount →
      ∀ recipient amount, amount ≤ k.permissions.max_transfer_amount →
        execute_with_session_key ua sig c (.Transfer recipient amount)
          (some ua.authority) (some recipient) (some ()) = none) ∧
    (k.permissions.can_transfer = true → 0 < k.permissions.max_transfer_amount →
      ∀ recipient fa ta sp,
        execute_with_session_key ua sig c
          (.Transfer recipient (k.permissions.max_transfer_amount + 1)) fa ta sp =
          some .InsufficientPermissions) ∧
    (k.permissions.can_transfer = false →
      ∀ mint da ed amount,
        spl_delegated_transfer ua sig c mint da ed amount =
          some .InsufficientPermissions) ∧
    (k.permissions.can_transfer = true → 0 < k.permissions.max_transfer_amount →
      ∀ mint da ed amount, k.permissions.max_transfer_amount < amount →
        spl_delegated_transfer ua sig c mint da ed amount =
          some .InsufficientPermissions) ∧
    (k.permissions.can_transfer = true → ua.allowed_mints = [] →
      ∀ mint da amount,
        (k.permissions.max_transfer_amount = 0 ∨
          amount ≤ k.permissions.max_transfer_amount) →
        spl_delegated_transfer ua sig c mint da da amount = none) := by
  refine ⟨?_, ?_, ?_, ?_, ?_, ?_, ?_⟩
  · intro hct recipient amount fa ta sp
    cases hty : k.expiration_type <;>
      simp_all [execute_with_session_key, SessionKey.is_expired, not_le]
  · intro hct hmax recipient amount
    cases hty : k.expiration_type <;>
      simp_all [execute_with_session_key, SessionKey.is_expired, not_le]
  · intro hct hmax recipient amount hamt
    cases hty : k.expiration_type <;>
      simp_all [execute_with_session_key, SessionKey.is_expired, not_le]
  · intro hct hmax recipient fa ta sp
    cases hty : k.expiration_type <;>
      simp_all [execute_with_session_key, SessionKey.is_expired, not_le,
        Nat.not_succ_le_self]
  · intro hct mint da ed amount
    cases hty : k.expiration_type <;>
      simp_all [spl_delegated_transfer, SessionKey.is_expired, not_le]
  · intro hct hmax mint da ed amount hamt
    cases hty : k.expiration_type <;>
      simp_all [spl_delegated_transfer, SessionKey.is_expired, not_le]
  · intro hct hmints mint da amount hamt
    rcases hamt with hamt | hamt <;>
      cases hty : k.expiration_type <;>
        simp_all [spl_delegated_transfer, SessionKey.is_expired, not_le]

/-- C2 witness: with cap 100, amount 100 succeeds and amount 101 fails
`InsufficientPermissions`. -/
theorem transfer_permission_gate_witness :
    execute_with_session_key
      { authority := 7,
        session_keys := [⟨1, 1000, 2000, .Time, ⟨true, false, false, 100, 0⟩, false, []⟩],
        bump := 0, allowed_mints := [] }
      1 ⟨1001, 50⟩ (.Transfer 9 100) (some 7) (some 9) (some ()) = none ∧
    execute_with_session_key
      { authority := 7,
        session_keys := [⟨1, 1000, 2000, .Time, ⟨true, false, false, 100, 0⟩, false, []⟩],
        bump := 0, allowed_mints := [] }
      1 ⟨1001, 50⟩ (.Transfer 9 101) (some 7) (some 9) (some ()) =
      some .InsufficientPermissions := by
  have h := transfer_permission_gate
    { authority := 7,
      session_keys := [⟨1, 1000, 2000, .Time, ⟨true, false, false, 100, 0⟩, false, []⟩],
      bump := 0, allowed_mints := [] }
    1 ⟨1001, 50⟩ ⟨1, 1000, 2000, .Time, ⟨true, false, false, 100, 0⟩, false, []⟩
    (by decide) (by decide) (by decide)
  exact ⟨h.2.2.1 rfl (by decide) 9 100 (by decide),
    h.2.2.2.1 rfl (by decide) 9 (some 7) (some 9) (some ())⟩

/-- C4: `is_revoked` only ever transitions from false to true — Revoke on
an already-revoked record fails `SessionKeyAlreadyRevoked` leaving the
state unchanged, Update on a revoked record fails `SessionKeyRevoked`
leaving the state unchanged, and no operation ever produces a record
with the identity of a previously revoked record whose flag is back to
false (for registries with distinct key identities, as every reachable
registry has). -/
theorem revocation_monotonic :
    (∀ (ua : UserAccount) (pk : Pubkey) (k : SessionKey),
      ua.session_keys.find? (fun k => k.pubkey == pk) = some k →
      k.is_revoked = true →
      revoke_session_key ua pk = (some .SessionKeyAlreadyRevoked, ua)) ∧
    (∀ (ua : UserAccount) (c : Clock) (pk : Pubkey) (ne : Option Int)
      (np : Option SessionPermissions) (k : SessionKey),
      ua.session_keys.find? (fun k => k.pubkey == pk) = some k →
      k.is_revoked = true →
      update_session_key ua c pk ne np = (some .SessionKeyRevoked, ua)) ∧
    (∀ (ua : UserAccount) (c : Clock) (op : Op),
      (ua.session_keys.map SessionKey.pubkey).Nodup →
      ∀ k ∈ ua.session_keys, k.is_revoked = true →
      ∀ k' ∈ (step ua c op).2.session_keys, k'.pubkey = k.pubkey →
      k'.is_revoked = true) := by
  refine ⟨?_, ?_, ?_⟩
  · intro ua pk k hfind hrev
    simp [revoke_session_key, hfind, hrev]
  · intro ua c pk ne np k hfind hrev
    simp [update_session_key, hfind, hrev]
  · intro ua c op hnd k hk hkrev k' hk' hpk
    have hinj : ∀ a ∈ ua.session_keys, ∀ b ∈ ua.session_keys,
        a.pubkey = b.pubkey → a = b := by
      intro a ha b hb hab
      exact List.inj_on_of_nodup_map hnd ha hb hab
    cases op with
    | create pk ex ty p =>
      simp only [step, create_session_key] at hk'
      split at hk'
      · exact (hinj k' hk' k hk hpk) ▸ hkrev
      · split at hk'
        · exact (hinj k' hk' k hk hpk) ▸ hkrev
        · split at hk'
          · exact (hinj k' hk' k hk hpk) ▸ hkrev
          · rename_i hany
            simp only [List.mem_append, List.mem_singleton] at hk'
            rcases hk' with h | h
            · exact (hinj k' h k hk hpk) ▸ hkrev
            · exfalso
              apply hany
              subst h
              simp only [List.any_eq_true]
              exact ⟨k, hk, by simp [← hpk]⟩
    | update pk ne np =>
      simp only [step, update_session_key] at hk'
      split at hk'
      · exact (hinj k' hk' k hk hpk) ▸ hkrev
      · split at hk'
        · exact (hinj k' hk' k hk hpk) ▸ hkrev
        · have hmem : k' ∈ ua.session_keys ∨
              ∃ x, x ∈ ua.session_keys ∧ k'.pubkey = x.pubkey ∧
                k'.is_revoked = x.is_revoked := by
            split at hk'
            · split at hk'
              · exact Or.inl hk'
              · rcases mem_modifyFirst hk' with h | ⟨x, hx, _, hkx⟩
                · exact Or.inl h
                · refine Or.inr ⟨x, hx, ?_, ?_⟩ <;>
                    cases np <;> simp [hkx]
            · rcases mem_modifyFirst hk' with h | ⟨x, hx, _, hkx⟩
              · exact Or.inl h
              · refine Or.inr ⟨x, hx, ?_, ?_⟩ <;>
                  cases np <;> simp [hkx]
          rcases hmem with h | ⟨x, hx, hxpk, hxrev⟩
          · exact (hinj k' h k hk hpk) ▸ hkrev
          · rw [hxrev]
            have hxk : x = k := hinj x hx k hk (hxpk ▸ hpk)
            rw [hxk]
            exact hkrev
    | revoke pk =>
      simp only [step, revoke_session_key] at hk'
      split at hk'
      · exact (hinj k' hk' k hk hpk) ▸ hkrev
      · split at hk'
        · exact (hinj k' hk' k hk hpk) ▸ hkrev
        · rcases mem_modifyFirst hk' with h | ⟨x, hx, _, hkx⟩
          · exact (hinj k' h k hk hpk) ▸ hkrev
          · rw [hkx]
    | revokeAll =>
      simp only [step, revoke_all_session_keys, List.mem_map] at hk'
      rcases hk' with ⟨x, hx, hkx⟩
      rw [← hkx]
    | cleanup =>
      simp only [step, cleanup_session_keys, List.mem_filter] at hk'
      exact (hinj k' hk'.1 k hk hpk) ▸ hkrev
    | setAllowedMints ms =>
      simp only [step, update_allowed_mints] at hk'
      split at hk' <;> exact (hinj k' hk' k hk hpk) ▸ hkrev

/-- C4 witness: Revoke on an already-revoked record fails
`SessionKeyAlreadyRevoked` and Update on it fails `SessionKeyRevoked`,
both leaving the account unchanged. -/
theorem revocation_monotonic_witness :
    revoke_session_key
      { authority := 7,
        session_keys := [⟨1, 0, 5, .Time, ⟨false, false, false, 0, 0⟩, true, []⟩],
        bump := 0, allowed_mints := [] } 1 =
      (some .SessionKeyAlreadyRevoked,
        { authority := 7,
          session_keys := [⟨1, 0, 5, .Time, ⟨false, false, false, 0, 0⟩, true, []⟩],
          bump := 0, allowed_mints := [] }) ∧
    update_session_key
      { authority := 7,
        session_keys := [⟨1, 0, 5, .Time, ⟨false, false, false, 0, 0⟩, true, []⟩],
        bump := 0, allowed_mints := [] } ⟨10, 0⟩ 1 (some 99) none =
      (some .SessionKeyRevoked,
        { authority := 7,
          session_keys := [⟨1, 0, 5, .Time, ⟨false, false, false, 0, 0⟩, true, []⟩],
          bump := 0, allowed_mints := [] }) := by
  exact ⟨revocation_monotonic.1 _ 1
      ⟨1, 0, 5, .Time, ⟨false, false, false, 0, 0⟩, true, []⟩ (by decide) (by decide),
    revocation_monotonic.2.1 _ ⟨10, 0⟩ 1 (some 99) none
      ⟨1, 0, 5, .Time, ⟨false, false, false, 0, 0⟩, true, []⟩ (by decide) (by decide)⟩

/-- C5 counterexample: a successful `BlockHeight` creation at a clock
whose timestamp (1000) differs from its slot (50) records `created_at =
1000`, the Unix timestamp — not the current reference (the height, 50)
for the given expiration type. -/
theorem create_created_at_not_reference :
    (create_session_key (initialize_user_account 7 255) ⟨1000, 50⟩ 1 60
        .BlockHeight ⟨true, false, false, 0, 0⟩).1 = none ∧
    List.map SessionKey.created_at
      (create_session_key (initialize_user_account 7 255) ⟨1000, 50⟩ 1 60
        .BlockHeight ⟨true, false, false, 0, 0⟩).2.session_keys = [1000] ∧
    currentReference .BlockHeight ⟨1000, 50⟩ = 50 ∧ (1000 : Int) ≠ 50 := by
  decide

/-- C5 (amended): Create fails `InvalidExpiry` when `expires_at` is not
strictly greater than the current reference for the given expiration
type, `TooManySessionKeys` when the registry already holds
`MAX_SESSION_KEYS` records, `SessionKeyAlreadyExists` when the key
identity is present (even revoked or expired) — checked in that order —
and on success appends a record with `is_revoked = false`, an all-zero
label, and `created_at` equal to the current Unix timestamp regardless
of expiration type. -/
theorem create_session_key_spec (ua : UserAccount) (c : Clock) (pk : Pubkey)
    (e : Int) (ty : ExpirationType) (p : SessionPermissions) :
    (¬ currentReference ty c < e →
      create_session_key ua c pk e ty p = (some .InvalidExpiry, ua)) ∧
    (currentReference ty c < e → MAX_SESSION_KEYS ≤ ua.session_keys.length →
      create_session_key ua c pk e ty p = (some .TooManySessionKeys, ua)) ∧
    (currentReference ty c < e → ua.session_keys.length < MAX_SESSION_KEYS →
      (∃ k ∈ ua.session_keys, k.pubkey = pk) →
      create_session_key ua c pk e ty p = (some .SessionKeyAlreadyExists, ua)) ∧
    (currentReference ty c < e → ua.session_keys.length < MAX_SESSION_KEYS →
      (∀ k ∈ ua.session_keys, k.pubkey ≠ pk) →
      create_session_key ua c pk e ty p = (none, { ua with session_keys :=
        ua.session_keys ++
          [⟨pk, c.unix_timestamp, e, ty, p, false, List.replicate 32 0⟩] })) := by
  refine ⟨?_, ?_, ?_, ?_⟩
  · intro hex
    cases ty <;> simp_all [create_session_key, currentReference]
  · intro hex hsz
    cases ty <;> simp_all [create_session_key, currentReference, Nat.not_lt.mpr hsz]
  · rintro hex hsz ⟨k, hk, hkpk⟩
    have hany : ua.session_keys.any (fun x => x.pubkey == pk) = true := by
      simp only [List.any_eq_true, beq_iff_eq]
      exact ⟨k, hk, hkpk⟩
    cases ty <;> simp_all [create_session_key, currentReference]
  · intro hex hsz hnone
    have hany : ua.session_keys.any (fun x => x.pubkey == pk) = false := by
      simp only [List.any_eq_false, beq_iff_eq]
      exact hnone
    cases ty <;> simp_all [create_session_key, currentReference]

/-- C5 witness: reusing the identity of a revoked record fails
`SessionKeyAlreadyExists`; a fresh identity is appended unrevoked with a
zeroed label and `created_at` = the clock's timestamp. -/
theorem create_session_key_spec_witness :
    create_session_key
      { authority := 7,
        session_keys := [⟨1, 0, 5, .Time, ⟨false, false, false, 0, 0⟩, true, []⟩],
        bump := 0, allowed_mints := [] } ⟨10, 20⟩ 1 100 .Time ⟨true, false, false, 0, 0⟩ =
      (some .SessionKeyAlreadyExists,
        { authority := 7,
          session_keys := [⟨1, 0, 5, .Time, ⟨false, false, false, 0, 0⟩, true, []⟩],
          bump := 0, allowed_mints := [] }) ∧
    create_session_key
      { authority := 7,
        session_keys := [⟨1, 0, 5, .Time, ⟨false, false, false, 0, 0⟩, true, []⟩],
        bump := 0, allowed_mints := [] } ⟨10, 20⟩ 2 100 .Time ⟨true, false, false, 0, 0⟩ =
      (none,
        { authority := 7,
          session_keys := [⟨1, 0, 5, .Time, ⟨false, false, false, 0, 0⟩, true, []⟩,
            ⟨2, 10, 100, .Time, ⟨true, false, false, 0, 0⟩, false, List.replicate 32 0⟩],
          bump := 0, allowed_mints := [] }) := by
  constructor
  · exact (create_session_key_spec _ ⟨10, 20⟩ 1 100 .Time ⟨true, false, false, 0, 0⟩).2.2.1
      (by decide) (by decide)
      ⟨⟨1, 0, 5, .Time, ⟨false, false, false, 0, 0⟩, true, []⟩, by simp, rfl⟩
  · exact (create_session_key_spec _ ⟨10, 20⟩ 2 100 .Time ⟨true, false, false, 0, 0⟩).2.2.2
      (by decide) (by decide) (by decide)

/-- C6: starting from a freshly initialized account, after any sequence
of operations the registry holds at most `MAX_SESSION_KEYS` (10) records
and no two records share a key identity. -/
theorem registry_invariant (authority bump : Nat) (ops : List (Clock × Op)) :
    RegistryInv (runOps (initialize_user_account authority bump) ops) := by
  apply runOps_preserves_registryInv
  constructor
  · simp [initialize_user_account, MAX_SESSION_KEYS]
  · simp [initialize_user_account]

/-- C7: Prune keeps exactly the records that are still valid at the
clock (removing exactly the invalid ones, in a relative-order-preserving
way, as the `filter`/`Sublist` forms state), reports the number removed,
never fails, and is idempotent: a second prune at the same clock removes
0 records and leaves the state fixed. -/
theorem cleanup_removes_exactly_invalid (ua : UserAccount) (c : Clock) :
    (cleanup_session_keys ua c).1 = none ∧
    (cleanup_session_keys ua c).2.1.session_keys =
      ua.session_keys.filter (fun k => k.is_valid c) ∧
    (cleanup_session_keys ua c).2.1.session_keys.Sublist ua.session_keys ∧
    (∀ k, k ∈ (cleanup_session_keys ua c).2.1.session_keys ↔
      k ∈ ua.session_keys ∧ k.is_valid c = true) ∧
    (cleanup_session_keys ua c).2.2 =
      (ua.session_keys.filter (fun k => !(k.is_valid c))).length ∧
    cleanup_session_keys (cleanup_session_keys ua c).2.1 c =
      (none, (cleanup_session_keys ua c).2.1, 0) := by
  refine ⟨rfl, rfl, List.filter_sublist _, fun k => List.mem_filter, ?_, ?_⟩
  · simpa [cleanup_session_keys] using
      (length_filter_not_eq_sub (fun k => k.is_valid c) ua.session_keys).symm
  · have hself : (ua.session_keys.filter (fun k => k.is_valid c)).filter
        (fun k => k.is_valid c) = ua.session_keys.filter (fun k => k.is_valid c) := by
      rw [List.filter_eq_self]
      intro a ha
      exact (List.mem_filter.mp ha).2
    simp [cleanup_session_keys, hself]

/-- C8: every operation is atomic — whenever a step reports an error,
the persisted account (authority, registry, allowlist and all) equals
the account before the call. -/
theorem step_error_leaves_state_unchanged (ua : UserAccount) (c : Clock) (op : Op)
    (e : ErrorCode) (h : (step ua c op).1 = some e) : (step ua c op).2 = ua := by
  rcases step_ok_or_unchanged ua c op with h' | h'
  · rw [h'] at h
    exact absurd h (by simp)
  · exact h'

/-- C8 witness: revoking an absent key errors and leaves the freshly
initialized account unchanged. -/
theorem step_error_leaves_state_unchanged_witness :
    (step (initialize_user_account 1 2) ⟨0, 0⟩ (.revoke 5)).2 =
      initialize_user_account 1 2 :=
  step_error_leaves_state_unchanged (initialize_user_account 1 2) ⟨0, 0⟩ (.revoke 5)
    .SessionKeyNotFound (by decide)

/-- C9: on both token-delegate paths (Approve, once its delegate and
token-account checks pass, and Delegated Transfer, once its session-key
checks pass), an empty `allowed_mints` admits any mint, a non-empty list
admits exactly its members, and any other mint fails `MintNotAllowed`;
the allowlist verdict does not depend on the session permissions (the
Approve path consults none). -/
theorem mint_allowlist_gate :
    (∀ (ua : UserAccount) (authority mint da : Pubkey),
      (ua.allowed_mints = [] →
        spl_approve_delegate ua authority authority mint mint da da = none) ∧
      (mint ∈ ua.allowed_mints →
        spl_approve_delegate ua authority authority mint mint da da = none) ∧
      (ua.allowed_mints ≠ [] → mint ∉ ua.allowed_mints →
        spl_approve_delegate ua authority authority mint mint da da =
          some .MintNotAllowed)) ∧
    (∀ (ua : UserAccount) (sig : Pubkey) (c : Clock) (k : SessionKey)
      (mint da : Pubkey) (amount : Nat),
      ua.session_keys.find? (fun k => k.pubkey == sig) = some k →
      k.is_revoked = false → k.is_expired c = false →
      k.permissions.can_transfer = true →
      (k.permissions.max_transfer_amount = 0 ∨
        amount ≤ k.permissions.max_transfer_amount) →
      ((ua.allowed_mints = [] →
        spl_delegated_transfer ua sig c mint da da amount = none) ∧
      (mint ∈ ua.allowed_mints →
        spl_delegated_transfer ua sig c mint da da amount = none) ∧
      (ua.allowed_mints ≠ [] → mint ∉ ua.allowed_mints →
        spl_delegated_transfer ua sig c mint da da amount =
          some .MintNotAllowed))) := by
  constructor
  · intro ua authority mint da
    refine ⟨?_, ?_, ?_⟩
    · intro hm
      simp [spl_approve_delegate, hm]
    · intro hm
      have hany : ua.allowed_mints.any (fun m => m == mint) = true := by
        simp only [List.any_eq_true, beq_iff_eq]
        exact ⟨mint, hm, rfl⟩
      simp [spl_approve_delegate, hany]
    · intro hne hm
      have hany : ua.allowed_mints.any (fun m => m == mint) = false := by
        simp only [List.any_eq_false, beq_iff_eq]
        intro x hx hxe
        exact hm (hxe ▸ hx)
      have hemp : ua.allowed_mints.isEmpty = false := by
        simpa [List.isEmpty_iff] using hne
      simp [spl_approve_delegate, hany, hemp]
  · intro ua sig c k mint da amount hfind hrev hexp hct hcap
    have hcapb : (k.permissions.max_transfer_amount > 0 &&
        !(decide (amount ≤ k.permissions.max_transfer_amount))) = false := by
      rcases hcap with h | h <;> simp [h]
    rw [spl_delegated_transfer_valid_reduce ua sig c k mint da da amount
      hfind hrev hexp hct]
    refine ⟨?_, ?_, ?_⟩
    · intro hm
      simp [hcapb, hm]
    · intro hm
      have hany : ua.allowed_mints.any (fun m => m == mint) = true := by
        simp only [List.any_eq_true, beq_iff_eq]
        exact ⟨mint, hm, rfl⟩
      simp [hcapb, hany]
    · intro hne hm
      have hany : ua.allowed_mints.any (fun m => m == mint) = false := by
        simp only [List.any_eq_false, beq_iff_eq]
        intro x hx hxe
        exact hm (hxe ▸ hx)
      have hemp : ua.allowed_mints.isEmpty = false := by
        simpa [List.isEmpty_iff] using hne
      simp [hcapb, hany, hemp]

/-- C9 witness: with allowlist `[88]`, mint 88 passes Approve and
Delegated Transfer while mint 99 fails Approve with `MintNotAllowed`. -/
theorem mint_allowlist_gate_witness :
    spl_approve_delegate
      { authority := 7, session_keys := [], bump := 0, allowed_mints := [88] }
      7 7 88 88 5 5 = none ∧
    spl_approve_delegate
      { authority := 7, session_keys := [], bump := 0, allowed_mints := [88] }
      7 7 99 99 5 5 = some .MintNotAllowed ∧
    spl_delegated_transfer
      { authority := 7,
        session_keys := [⟨1, 1000, 2000, .Time, ⟨true, false, false, 0, 0⟩, false, []⟩],
        bump := 0, allowed_mints := [88] }
      1 ⟨1001, 50⟩ 88 5 5 10 = none := by
  refine ⟨?_, ?_, ?_⟩
  · exact (mint_allowlist_gate.1
      { authority := 7, session_keys := [], bump := 0, allowed_mints := [88] }
      7 88 5).2.1 (by simp)
  · exact (mint_allowlist_gate.1
      { authority := 7, session_keys := [], bump := 0, allowed_mints := [88] }
      7 99 5).2.2 (by simp) (by decide)
  · exact (mint_allowlist_gate.2
      { authority := 7,
        session_keys := [⟨1, 1000, 2000, .Time, ⟨true, false, false, 0, 0⟩, false, []⟩],
        bump := 0, allowed_mints := [88] }
      1 ⟨1001, 50⟩ ⟨1, 1000, 2000, .Time, ⟨true, false, false, 0, 0⟩, false, []⟩
      88 5 10 (by decide) (by decide) (by decide) (by decide)
      (Or.inl (by decide))).2.1 (by simp)

/-- C10: in the `Transfer` branch, once the `can_transfer` and cap
checks have passed, a missing `from`/`to`/`system_program` account, a
`from` key differing from the owner authority, or a `to` key differing
from the action recipient each fail with `InsufficientPermissions` — the
same code used for capability denials, with no dedicated account error;
and a cap violation yields that error for every account configuration,
before the account checks are consulted. -/
theorem transfer_account_checks (ua : UserAccount) (sig : Pubkey) (c : Clock)
    (k : SessionKey) (recipient : Pubkey) (amount : Nat)
    (hfind : ua.session_keys.find? (fun k => k.pubkey == sig) = some k)
    (hrev : k.is_revoked = false) (hexp : k.is_expired c = false)
    (hct : k.permissions.can_transfer = true) :
    ((k.permissions.max_transfer_amount = 0 ∨
        amount ≤ k.permissions.max_transfer_amount) →
      (∀ ta sp, execute_with_session_key ua sig c (.Transfer recipient amount)
        none ta sp = some .InsufficientPermissions) ∧
      (∀ f sp, execute_with_session_key ua sig c (.Transfer recipient amount)
        (some f) none sp = some .InsufficientPermissions) ∧
      (∀ f t, execute_with_session_key ua sig c (.Transfer recipient amount)
        (some f) (some t) none = some .InsufficientPermissions) ∧
      (∀ f t, f ≠ ua.authority →
        execute_with_session_key ua sig c (.Transfer recipient amount)
          (some f) (some t) (some ()) = some .InsufficientPermissions) ∧
      (∀ t, t ≠ recipient →
        execute_with_session_key ua sig c (.Transfer recipient amount)
          (some ua.authority) (some t) (some ()) = some .InsufficientPermissions)) ∧
    (0 < k.permissions.max_transfer_amount →
      k.permissions.max_transfer_amount < amount →
      ∀ fa ta sp, execute_with_session_key ua sig c (.Transfer recipient amount)
        fa ta sp = some .InsufficientPermissions) := by
  constructor
  · intro hcap
    have hcapb : (k.permissions.max_transfer_amount > 0 &&
        !(decide (amount ≤ k.permissions.max_transfer_amount))) = false := by
      rcases hcap with h | h <;> simp [h]
    refine ⟨?_, ?_, ?_, ?_, ?_⟩
    · intro ta sp
      rw [execute_transfer_valid_reduce ua sig c k recipient amount _ _ _
        hfind hrev hexp hct]
      simp [hcapb]
    · intro f sp
      rw [execute_transfer_valid_reduce ua sig c k recipient amount _ _ _
        hfind hrev hexp hct]
      simp [hcapb]
    · intro f t
      rw [execute_transfer_valid_reduce ua sig c k recipient amount _ _ _
        hfind hrev hexp hct]
      simp [hcapb]
    · intro f t hf
      rw [execute_transfer_valid_reduce ua sig c k recipient amount _ _ _
        hfind hrev hexp hct]
      simp [hcapb, hf]
    · intro t ht
      rw [execute_transfer_valid_reduce ua sig c k recipient amount _ _ _
        hfind hrev hexp hct]
      simp [hcapb, ht]
  · intro h0 hlt fa ta sp
    have hcapb : (k.permissions.max_transfer_amount > 0 &&
        !(decide (amount ≤ k.permissions.max_transfer_amount))) = true := by
      simp [h0, Nat.not_le.mpr hlt]
    rw [execute_transfer_valid_reduce ua sig c k recipient amount _ _ _
      hfind hrev hexp hct]
    simp [hcapb]

/-- C10 witness: with the cap satisfied, a missing `from` account and a
`from` key that is not the owner authority both fail
`InsufficientPermissions`. -/
theorem transfer_account_checks_witness :
    execute_with_session_key
      { authority := 7,
        session_keys := [⟨1, 0, 2000, .Time, ⟨true, false, false, 0, 0⟩, false, []⟩],
        bump := 0, allowed_mints := [] }
      1 ⟨1001, 50⟩ (.Transfer 9 5) none none none = some .InsufficientPermissions ∧
    execute_with_session_key
      { authority := 7,
        session_keys := [⟨1, 0, 2000, .Time, ⟨true, false, false, 0, 0⟩, false, []⟩],
        bump := 0, allowed_mints := [] }
      1 ⟨1001, 50⟩ (.Transfer 9 5) (some 8) (some 9) (some ()) =
      some .InsufficientPermissions := by
  have h := transfer_account_checks
    { authority := 7,
      session_keys := [⟨1, 0, 2000, .Time, ⟨true, false, false, 0, 0⟩, false, []⟩],
      bump := 0, allowed_mints := [] }
    1 ⟨1001, 50⟩ ⟨1, 0, 2000, .Time, ⟨true, false, false, 0, 0⟩, false, []⟩ 9 5
    (by decide) (by decide) (by decide) (by decide)
  exact ⟨(h.1 (Or.inl rfl)).1 none none, (h.1 (Or.inl rfl)).2.2.2.1 8 9 (by decide)⟩

end SessionKeyProgram
